import Mathlib

/-
  Verification development for the DotCode Scanner multi-image
  extraction-and-reconciliation pipeline.

  Shallow embedding of:
   - src/App.tsx, processImages (fan-out, merge/dedup, error classification);
   - src/services/gemini.ts, hasApiKey / getAI / analyzeImage response handling.

  Conventions of the embedding:
   - JavaScript exceptions become `Except JsError`; a thrown error carries its
     `message` string and optional `code` tag.
   - Runtime objects whose fields may be absent (the client performs no runtime
     shape validation) use `Option` fields.
   - React state setters are modelled with immediate sequential-write semantics
     within one invocation of processImages; the final ProcResult records the
     state written by that invocation.
-/

/-- A JavaScript Error value: its message and the optional `code` property
attached by getAI for the missing-key case. -/
structure JsError where
  message : String
  code : Option String
deriving DecidableEq, Repr

/-- Runtime shape of one extracted item. The TypeScript interface declares
`dotCode` and `confidence` required, but the client never validates the parsed
object, so at runtime every field may be absent; App.tsx guards with
`item.dotCode || ""`. -/
structure ScannedItem where
  dotCode : Option String
  manufacturingDate : Option String
  price : Option String
  confidence : Option String
  rawText : Option String
deriving DecidableEq, Repr

/-- Runtime shape of one extraction result; `items` may be absent at runtime
(App.tsx guards with `res && res.items`). -/
structure AnalysisResultRt where
  items : Option (List ScannedItem)
  summary : Option String
deriving DecidableEq, Repr

/-- Whitespace class used by the JS regex \s for the code strings handled here
(ASCII whitespace). -/
def isWs (c : Char) : Bool :=
  c == ' ' || c == '\t' || c == '\n' || c == '\r' || c == '\x0b' || c == '\x0c'

/-- App.tsx line 233: `(item.dotCode || "").replace(/\s+/g, "").toUpperCase()`,
acting on a string already defaulted: remove all whitespace, then uppercase. -/
def normalizeCode (s : String) : String :=
  String.mk ((s.data.filter (fun c => !(isWs c))).map Char.toUpper)

/-- The normalized identity of one item, with the `|| ""` default for an absent
dotCode. -/
def itemCode (it : ScannedItem) : String :=
  normalizeCode (it.dotCode.getD "")

/-- The two merge accumulators of processImages: `uniqueCodes` (a Set, modelled
as the list of codes in insertion order) and `allItems`. -/
structure MergeState where
  seen : List String
  acc : List ScannedItem
deriving DecidableEq, Repr

/-- App.tsx lines 233-239: add one item when its normalized code is non-empty
and unseen; record the code and append the item unmodified. -/
def addItem (st : MergeState) (it : ScannedItem) : MergeState :=
  let n := itemCode it
  if n.length > 0 ∧ n ∉ st.seen then
    { seen := st.seen ++ [n], acc := st.acc ++ [it] }
  else st

/-- First-occurrence deduplication of an item stream relative to an
already-seen code set; the recursive form of the addItem fold, used to state
and prove its properties. -/
def dedupFirst (seen : List String) : List ScannedItem → List ScannedItem
  | [] => []
  | it :: rest =>
    let n := itemCode it
    if n.length > 0 ∧ n ∉ seen then it :: dedupFirst (seen ++ [n]) rest
    else dedupFirst seen rest

/-- The items contributed by one settled outcome: present only when the result
is non-null and its `items` field is present (`res && res.items`). -/
def itemsOf (o : Option AnalysisResultRt) : List ScannedItem :=
  match o with
  | some r => r.items.getD []
  | none => []

/-- All items of all contributing outcomes, in image processing order and then
within-image order. -/
def flatItems : List (Option AnalysisResultRt) → List ScannedItem
  | [] => []
  | o :: rest => itemsOf o ++ flatItems rest

/-- Merge the items of one settled outcome into the accumulators. -/
def consumePair (st : MergeState) (o : Option AnalysisResultRt) : MergeState :=
  (itemsOf o).foldl addItem st

/-- The merge accumulators after the `results.forEach` loop. -/
def mergePair (outs : List (Option AnalysisResultRt)) : MergeState :=
  outs.foldl consumePair { seen := [], acc := [] }

/-- The merged collection `allItems` produced by the reconciler. -/
def mergedOf (outs : List (Option AnalysisResultRt)) : List ScannedItem :=
  (mergePair outs).acc

/-- `processedCount`: the number of outcomes with a non-null result whose
`items` field is present (App.tsx line 230/241). -/
def processedCount (outs : List (Option AnalysisResultRt)) : Nat :=
  outs.countP (fun o => match o with
    | some r => r.items.isSome
    | none => false)

/-- The per-image catch of App.tsx lines 217-225: a resolved value stays, a
thrown error becomes null. -/
def settleOne (r : Except JsError AnalysisResultRt) : Option AnalysisResultRt :=
  match r with
  | .ok v => some v
  | .error _ => none

/-- The settled outcome list handed to the merge loop, in input order. -/
def outcomesOf (imgs : List String) (ext : String → Except JsError AnalysisResultRt) :
    List (Option AnalysisResultRt) :=
  (imgs.map ext).map settleOne

/-- `lastError`: the last thrown error observed over the settled calls, taken
in input order in this sequential model (the source overwrites the variable at
each caught failure). -/
def lastErrorOf (rs : List (Except JsError AnalysisResultRt)) : Option JsError :=
  rs.foldl (fun acc r => match r with
    | .error e => some e
    | .ok _ => acc) none

/-- Prefix test on character lists, used for substring containment. -/
def leadsWith : List Char → List Char → Bool
  | [], _ => true
  | _ :: _, [] => false
  | a :: as, b :: bs => a == b && leadsWith as bs

/-- Substring containment scan on character lists. -/
def includesAux (pat : List Char) : List Char → Bool
  | [] => pat.isEmpty
  | c :: rest => leadsWith pat (c :: rest) || includesAux pat rest

/-- JS `hay.includes(pat)`. -/
def strIncludes (hay pat : String) : Bool :=
  includesAux pat.data hay.data

def apiKeyErrMsg : String := "API Key configuration is missing or invalid."

def networkErrMsg : String := "Network error detected. Please check your internet connection."

def genericErrMsg : String := "Analysis failed. See technical details for more info."

def noCodesErrMsg : String := "No recognizable DotCodes found. Please ensure image is clear."

def noCodesDetail : String := "The AI scanned the image but did not return any recognized items. This usually means the image is blurry, the codes are too small, or the model could not confidently read the text."

/-- The summary of a non-error pipeline result (App.tsx line 270). -/
def summaryMsg (p n m : Nat) : String :=
  "Processed " ++ toString p ++ " of " ++ toString n ++ " images. Found " ++ toString m ++ " unique codes."

/-- Outcome of one processImages invocation: the result state, the visible
error banner and technical-detail states, whether the invocation flipped the
application into credential-entry mode, and the error message thrown inside
the try block (before the surrounding catch), if any. -/
structure ProcResult where
  result : Option (List ScannedItem × String)
  error : Option String
  errorDetails : Option String
  apiKeyMissing : Bool
  thrown : Option String
deriving DecidableEq, Repr

/-- App.tsx lines 245-271 followed by the catch of lines 273-279: classify the
all-fail case by priority (credential, then network, then generic, then
no-codes fallback) or produce the non-error result. The catch suppresses the
error banner exactly for the credential message (the setup screen is shown
instead). -/
def classifyAndFinish (merged : List ScannedItem) (processed imgCount : Nat)
    (lastError : Option JsError) : ProcResult :=
  if processed = 0 ∧ 0 < imgCount then
    match lastError with
    | some e =>
      if e.code = some "MISSING_API_KEY" ∨ strIncludes e.message "API Key" = true then
        { result := none, error := none, errorDetails := none,
          apiKeyMissing := true, thrown := some apiKeyErrMsg }
      else if strIncludes e.message "fetch" = true ∨ strIncludes e.message "network" = true then
        { result := none, error := some networkErrMsg, errorDetails := some networkErrMsg,
          apiKeyMissing := false, thrown := some networkErrMsg }
      else
        { result := none, error := some genericErrMsg, errorDetails := some e.message,
          apiKeyMissing := false, thrown := some genericErrMsg }
    | none =>
        { result := none, error := some noCodesErrMsg, errorDetails := some noCodesDetail,
          apiKeyMissing := false, thrown := some noCodesErrMsg }
  else
    { result := some (merged, summaryMsg processed imgCount merged.length),
      error := none, errorDetails := none, apiKeyMissing := false, thrown := none }

/-- The whole processImages invocation of App.tsx lines 204-284, for a given
per-image extraction function: settle every image, merge, then classify. -/
def processImages (imgs : List String)
    (ext : String → Except JsError AnalysisResultRt) : ProcResult :=
  classifyAndFinish (mergedOf (outcomesOf imgs ext))
    (processedCount (outcomesOf imgs ext)) imgs.length (lastErrorOf (imgs.map ext))

/-- A settled per-image outcome at the orchestrator boundary. -/
inductive PipelineOutcome where
  | success (r : AnalysisResultRt)
  | failure (e : JsError)
deriving DecidableEq, Repr

/-- The local catch of one extraction call: a resolved value is a success, a
thrown error is converted to a Failure outcome. -/
def settle (r : Except JsError AnalysisResultRt) : PipelineOutcome :=
  match r with
  | .ok v => .success v
  | .error e => .failure e

/-- The fan-out orchestrator of App.tsx lines 217-227: one settled outcome per
input image, in input order. -/
def runBatch (imgs : List String)
    (ext : String → Except JsError AnalysisResultRt) : List PipelineOutcome :=
  imgs.map (fun i => settle (ext i))

/-- Credential-side state of gemini.ts: the process-level env credential (fixed
for the page lifetime), the locally stored credential, and the lazily cached
client handle, modelled by the key it was constructed with. -/
structure CredState where
  env : Option String
  stored : Option String
  ai : Option String
deriving DecidableEq, Repr

/-- gemini.ts lines 27: the env credential counts when present, non-empty and
not the placeholder string. -/
def envGood (env : Option String) : Bool :=
  match env with
  | some k => !(k == "") && !(k == "undefined")
  | none => false

/-- gemini.ts lines 22-31, hasApiKey: true when the env credential is good or
the stored credential is present and non-empty (no placeholder check there). -/
def hasApiKey (s : CredState) : Bool :=
  envGood s.env || (match s.stored with
    | some k => !(k == "")
    | none => false)

/-- The error thrown by getAI when no credential resolves. -/
def missingKeyErr : JsError :=
  { message := "API Key is missing. Please enter it in Settings.", code := some "MISSING_API_KEY" }

/-- gemini.ts lines 33-53, getAI: return the cached client if present;
otherwise resolve env first (skipping empty or placeholder), then the stored
key, throw the MISSING_API_KEY error when nothing resolves, else cache. -/
def getAI (s : CredState) : Except JsError (String × CredState) :=
  match s.ai with
  | some c => .ok (c, s)
  | none =>
    let k1 : String := match s.env with
      | some k => k
      | none => ""
    let k2 : String := if k1 == "" || k1 == "undefined" then s.stored.getD "" else k1
    if k2 == "" then .error missingKeyErr
    else .ok (k2, { s with ai := some k2 })

/-- gemini.ts lines 8-13, setStoredApiKey: a truthy key is trimmed, stored,
and the cached client invalidated. -/
def setStoredApiKey (s : CredState) (key : String) : CredState :=
  if key == "" then s
  else { s with stored := some key.trim, ai := none }

/-- gemini.ts lines 16-19, removeStoredApiKey. -/
def removeStoredApiKey (s : CredState) : CredState :=
  { s with stored := none, ai := none }

/-- The operations that can touch the credential state during a page lifetime;
an analyze call touches it only through getAI's cache fill. -/
inductive CredOp where
  | setKey (k : String)
  | clearKey
  | analyze
deriving DecidableEq, Repr

def applyOp (s : CredState) : CredOp → CredState
  | .setKey k => setStoredApiKey s k
  | .clearKey => removeStoredApiKey s
  | .analyze =>
    match getAI s with
    | .ok (_, s2) => s2
    | .error _ => s

/-- Page-load state: no cached client yet. -/
def initState (env stored : Option String) : CredState :=
  { env := env, stored := stored, ai := none }

/-- The credential state reached from page load by a sequence of operations. -/
def reachCred (env stored : Option String) (ops : List CredOp) : CredState :=
  ops.foldl applyOp (initState env stored)

/-- The credential phase of analyzeImage (gemini.ts lines 72-73, with the
catch of line 161 rethrowing the MISSING_API_KEY error unchanged): on a
resolved client the collaborator request is issued, otherwise the call fails
before any request. The Bool records whether a request was issued. -/
def analyzeAttempt (s : CredState)
    (collab : String → Except JsError AnalysisResultRt) (img : String) :
    Except JsError AnalysisResultRt × Bool × CredState :=
  match getAI s with
  | .error e => (.error e, false, s)
  | .ok (_, s2) => (collab img, true, s2)

/-- Structured values produced by the runtime JSON parser. -/
inductive Json where
  | null
  | bool (b : Bool)
  | num (n : Int)
  | str (s : String)
  | arr (xs : List Json)
  | obj (fields : List (String × Json))

/-- Field lookup in a parsed object. -/
def lookupField (fields : List (String × Json)) (k : String) : Option Json :=
  match fields with
  | [] => none
  | (k2, v) :: rest => if k2 == k then some v else lookupField rest k

/-- Modelled from the spec: the confidence enum of the AnalysisResult shape. -/
def isConfidence (j : Json) : Bool :=
  match j with
  | .str s => s == "High" || s == "Medium" || s == "Low"
  | _ => false

/-- Modelled from the spec: a parsed value conforms to the ScannedItem shape
when it is an object with a string `dotCode` and a valid `confidence`. -/
def isScannedItemJson (j : Json) : Bool :=
  match j with
  | .obj fs =>
    (match lookupField fs "dotCode" with
      | some (.str _) => true
      | _ => false)
    && (match lookupField fs "confidence" with
      | some c => isConfidence c
      | _ => false)
  | _ => false

/-- Modelled from the spec: a parsed value conforms to the AnalysisResult shape
when it is an object whose `items` is an array of conforming ScannedItems and
whose `summary` is a string. This is the validation the spec asks of the
client, stated to compare against what the code actually does. -/
def conformsAnalysisResult (j : Json) : Bool :=
  match j with
  | .obj fs =>
    (match lookupField fs "items" with
      | some (.arr xs) => xs.all isScannedItemJson
      | _ => false)
    && (match lookupField fs "summary" with
      | some (.str _) => true
      | _ => false)
  | _ => false

/-- First index of a character in a list, JS `indexOf` with none for -1. -/
def idxOfAux (c : Char) : List Char → Option Nat
  | [] => none
  | a :: rest => if a == c then some 0 else (idxOfAux c rest).map (· + 1)

/-- Last index of a character in a list, JS `lastIndexOf` with none for -1. -/
def lastIdxOf (c : Char) (l : List Char) : Option Nat :=
  match idxOfAux c l.reverse with
  | some i => some (l.length - 1 - i)
  | none => none

/-- JS `s.substring(a, b)`: indices are clamped to the string and swapped when
out of order. -/
def jsSubstring (s : String) (a b : Nat) : String :=
  let lo := min a b
  let hi := max a b
  String.mk ((s.data.drop lo).take (hi - lo))

/-- gemini.ts line 145: the delimiters-absent error message, carrying the
first 50 characters of the raw response. -/
def noJsonMsg (text : String) : String :=
  "AI did not return a valid JSON object. Response: " ++ jsSubstring text 0 50 ++ "..."

def parseFailMsg : String := "Failed to parse AI response. The model returned invalid JSON."

def emptyRespMsg : String := "No response text received from Gemini API"

/-- gemini.ts lines 131-155, the response-processing phase of analyzeImage,
parameterized by the runtime JSON parser: reject an empty response text,
locate the first opening-brace and last closing-brace, take the enclosed
substring as the payload, parse it, and return the parsed value as-is (the
source casts, it does not validate). Both malformed-case messages contain the
marker "JSON" that the surrounding catch (line 165) uses to rethrow them
unchanged. -/
def analyzeResponsePhase (parse : String → Option Json) (text : String) :
    Except JsError Json :=
  if text == "" then .error { message := emptyRespMsg, code := none }
  else
    match idxOfAux '\x7b' text.data, lastIdxOf '\x7d' text.data with
    | some i, some j =>
      match parse (jsSubstring text i (j + 1)) with
      | some v => .ok v
      | none => .error { message := parseFailMsg, code := none }
    | some _, none => .error { message := noJsonMsg text, code := none }
    | none, some _ => .error { message := noJsonMsg text, code := none }
    | none, none => .error { message := noJsonMsg text, code := none }

/-- gemini.ts line 172: a transport-level failure is wrapped with the original
message (or a fixed fallback for an empty one). -/
def transportWrap (m : String) : String :=
  "Analysis failed: " ++ (if m == "" then "Unknown error" else m)

/-- Modelled from the spec: the claim-side notion of a credential value being
absent, empty, or the known placeholder string (the value the code treats as a
placeholder for the env credential). Stated to compare with hasApiKey. -/
def credAbsentEmptyOrPlaceholder (c : Option String) : Bool :=
  match c with
  | none => true
  | some k => k == "" || k == "undefined"

/-- Models the platform JSON parser on the inputs used in this development:
the two-character empty-object literal parses to the empty object; other
payloads used here are listed explicitly. -/
def jsonParseStub (s : String) : Option Json :=
  if s == "\x7b\x7d" then some (Json.obj [])
  else none

/- Concrete fixtures used by witnesses and counterexamples. -/

def itemAb : ScannedItem :=
  { dotCode := some "ab12 cd", manufacturingDate := some "06/09/25",
    price := some "170.00", confidence := some "High", rawText := some "raw" }

def itemDup : ScannedItem :=
  { dotCode := some "AB12CD", manufacturingDate := none, price := none,
    confidence := some "Low", rawText := none }

def itemBlank : ScannedItem :=
  { dotCode := some "   ", manufacturingDate := none, price := none,
    confidence := some "Medium", rawText := none }

def itemNoCode : ScannedItem :=
  { dotCode := none, manufacturingDate := none, price := none,
    confidence := none, rawText := none }

def itemZz : ScannedItem :=
  { dotCode := some "zz 9", manufacturingDate := none, price := none,
    confidence := some "High", rawText := none }

def itemQ : ScannedItem :=
  { dotCode := some "q7", manufacturingDate := none, price := none,
    confidence := some "Low", rawText := none }

def outsW : List (Option AnalysisResultRt) :=
  [some { items := some [itemAb, itemBlank], summary := some "s1" },
   none,
   some { items := some [itemDup, itemZz, itemNoCode], summary := some "s2" }]

def errTransportFetch : JsError := { message := transportWrap "Failed to fetch", code := none }

def errTransportSock : JsError := { message := transportWrap "socket hang up", code := none }

def errCredNet : JsError :=
  { message := "Analysis failed: fetch network while checking API Key",
    code := some "MISSING_API_KEY" }

def extSock : String → Except JsError AnalysisResultRt := fun _ => .error errTransportSock

def extFetch : String → Except JsError AnalysisResultRt := fun _ => .error errTransportFetch

def extCredNet : String → Except JsError AnalysisResultRt := fun _ => .error errCredNet

def extOkEmpty : String → Except JsError AnalysisResultRt :=
  fun _ => .ok { items := some [], summary := some "ok" }

def extNoItems : String → Except JsError AnalysisResultRt :=
  fun _ => .ok { items := none, summary := some "ok" }

def extMixA : String → Except JsError AnalysisResultRt := fun img =>
  if img == "b" then .error errTransportSock
  else .ok { items := some [itemAb], summary := some "s" }

def extMixB : String → Except JsError AnalysisResultRt := fun img =>
  if img == "b" then .error errTransportFetch
  else .ok { items := some [itemAb], summary := some "s" }

def imgsP : List String := ["img1", "img2", "img3"]

def extPartial : String → Except JsError AnalysisResultRt := fun img =>
  if img == "img1" then .ok { items := some [itemAb, itemZz], summary := some "s1" }
  else if img == "img2" then .error errTransportSock
  else .ok { items := some [itemDup, itemQ], summary := some "s3" }

def collabStub : String → Except JsError AnalysisResultRt :=
  fun _ => .ok { items := some [], summary := some "ok" }

theorem dedupFirst_sublist (seen : List String) (l : List ScannedItem) :
    (dedupFirst seen l).Sublist l := by
  induction l generalizing seen with
  | nil => simp [dedupFirst]
  | cons it rest ih =>
    unfold dedupFirst
    by_cases h : (itemCode it).length > 0 ∧ itemCode it ∉ seen
    · simp only [if_pos h]
      exact (ih (seen ++ [itemCode it])).cons₂ it
    · simp only [if_neg h]
      exact (ih seen).cons it

theorem dedupFirst_mem (seen : List String) (l : List ScannedItem)
    (it2 : ScannedItem) (hm : it2 ∈ dedupFirst seen l) :
    (itemCode it2).length > 0 ∧ itemCode it2 ∉ seen := by
  induction l generalizing seen with
  | nil => simp [dedupFirst] at hm
  | cons it rest ih =>
    unfold dedupFirst at hm
    by_cases h : (itemCode it).length > 0 ∧ itemCode it ∉ seen
    · simp only [if_pos h, List.mem_cons] at hm
      rcases hm with hm | hm
      · exact hm ▸ h
      · have := ih (seen ++ [itemCode it]) hm
        exact ⟨this.1, fun hc => this.2 (List.mem_append_left _ hc)⟩
    · simp only [if_neg h] at hm
      exact ih seen hm

theorem dedupFirst_pairwise (seen : List String) (l : List ScannedItem) :
    (dedupFirst seen l).Pairwise (fun a b => itemCode a ≠ itemCode b) := by
  induction l generalizing seen with
  | nil => simp [dedupFirst]
  | cons it rest ih =>
    unfold dedupFirst
    by_cases h : (itemCode it).length > 0 ∧ itemCode it ∉ seen
    · simp only [if_pos h]
      refine List.Pairwise.cons ?_ (ih (seen ++ [itemCode it]))
      intro b hb heq
      have := dedupFirst_mem _ _ _ hb
      exact this.2 (List.mem_append_right _ (by simp [heq]))
    · simp only [if_neg h]
      exact ih seen

theorem dedupFirst_covers : ∀ (l : List ScannedItem) (seen : List String)
    (it2 : ScannedItem), it2 ∈ l → (itemCode it2).length > 0 →
    itemCode it2 ∉ seen →
    ∃ it3, it3 ∈ dedupFirst seen l ∧ itemCode it3 = itemCode it2 := by
  intro l
  induction l with
  | nil => intro seen it2 hm _ _; simp at hm
  | cons it rest ih =>
    intro seen it2 hm hlen hns
    unfold dedupFirst
    rcases List.mem_cons.mp hm with rfl | hm2
    · by_cases h : (itemCode it2).length > 0 ∧ itemCode it2 ∉ seen
      · exact ⟨it2, by simp [if_pos h], rfl⟩
      · exact absurd ⟨hlen, hns⟩ h
    · by_cases h : (itemCode it).length > 0 ∧ itemCode it ∉ seen
      · simp only [if_pos h]
        by_cases he : itemCode it2 = itemCode it
        · exact ⟨it, List.mem_cons_self _ _, he.symm⟩
        · have hns2 : itemCode it2 ∉ seen ++ [itemCode it] := by
            intro hc
            rcases List.mem_append.mp hc with hc | hc
            · exact hns hc
            · exact he (by simpa using hc)
          obtain ⟨it3, h3, he3⟩ := ih (seen ++ [itemCode it]) it2 hm2 hlen hns2
          exact ⟨it3, List.mem_cons_of_mem _ h3, he3⟩
      · simp only [if_neg h]
        exact ih seen it2 hm2 hlen hns

theorem dedupFirst_first_wins (seen : List String) (l : List ScannedItem)
    (it2 : ScannedItem) (hm : it2 ∈ dedupFirst seen l) :
    l.find? (fun x => itemCode x == itemCode it2) = some it2 := by
  induction l generalizing seen with
  | nil => simp [dedupFirst] at hm
  | cons it rest ih =>
    unfold dedupFirst at hm
    by_cases h : (itemCode it).length > 0 ∧ itemCode it ∉ seen
    · simp only [if_pos h, List.mem_cons] at hm
      rcases hm with rfl | hm2
      · exact List.find?_cons_of_pos _ (by simp)
      · have hmem := dedupFirst_mem _ _ _ hm2
        have hne : itemCode it ≠ itemCode it2 := by
          intro he
          exact hmem.2 (List.mem_append_right _ (by simp [he]))
        rw [List.find?_cons_of_neg _ (by simpa using hne)]
        exact ih _ hm2
    · simp only [if_neg h] at hm
      have hmem := dedupFirst_mem _ _ _ hm
      have hne : itemCode it ≠ itemCode it2 := by
        intro he
        exact h ⟨he ▸ hmem.1, he ▸ hmem.2⟩
      rw [List.find?_cons_of_neg _ (by simpa using hne)]
      exact ih _ hm

theorem foldl_addItem_eq (l : List ScannedItem) (st : MergeState) :
    l.foldl addItem st =
      { seen := st.seen ++ (dedupFirst st.seen l).map itemCode,
        acc := st.acc ++ dedupFirst st.seen l } := by
  induction l generalizing st with
  | nil => simp [dedupFirst]
  | cons it rest ih =>
    by_cases h : (itemCode it).length > 0 ∧ itemCode it ∉ st.seen
    · have ha : addItem st it =
          { seen := st.seen ++ [itemCode it], acc := st.acc ++ [it] } := by
        simp [addItem, h]
      have hd : dedupFirst st.seen (it :: rest) =
          it :: dedupFirst (st.seen ++ [itemCode it]) rest := by
        simp [dedupFirst, h]
      show rest.foldl addItem (addItem st it) = _
      rw [ha, ih, hd]
      simp
    · have ha : addItem st it = st := by simp [addItem, h]
      have hd : dedupFirst st.seen (it :: rest) = dedupFirst st.seen rest := by
        simp [dedupFirst, h]
      show rest.foldl addItem (addItem st it) = _
      rw [ha, ih, hd]

theorem mergePair_eq_dedup (outs : List (Option AnalysisResultRt)) :
    mergePair outs =
      { seen := (dedupFirst [] (flatItems outs)).map itemCode,
        acc := dedupFirst [] (flatItems outs) } := by
  have fusion : ∀ (os : List (Option AnalysisResultRt)) (st : MergeState),
      os.foldl consumePair st = (flatItems os).foldl addItem st := by
    intro os
    induction os with
    | nil => intro st; rfl
    | cons o rest ih =>
      intro st
      show rest.foldl consumePair (consumePair st o) = _
      rw [ih]
      show _ = (itemsOf o ++ flatItems rest).foldl addItem st
      rw [List.foldl_append]
      rfl
  show List.foldl consumePair { seen := [], acc := [] } outs = _
  rw [fusion, foldl_addItem_eq]
  simp

theorem mergedOf_eq_dedup (outs : List (Option AnalysisResultRt)) :
    mergedOf outs = dedupFirst [] (flatItems outs) := by
  rw [mergedOf, mergePair_eq_dedup]

theorem leadsWith_append (p : List Char) : ∀ (l t : List Char),
    leadsWith p l = true → leadsWith p (l ++ t) = true := by
  induction p with
  | nil => intro l t _; rfl
  | cons a as ih =>
    intro l t h
    cases l with
    | nil => simp [leadsWith] at h
    | cons b bs =>
      simp only [leadsWith, Bool.and_eq_true] at h ⊢
      exact ⟨h.1, ih bs t h.2⟩

theorem includesAux_nil_pat : ∀ (l : List Char), includesAux [] l = true := by
  intro l
  cases l with
  | nil => rfl
  | cons c rest => simp [includesAux, leadsWith]

theorem includesAux_append_left (p : List Char) : ∀ (l t : List Char),
    includesAux p l = true → includesAux p (l ++ t) = true := by
  intro l
  induction l with
  | nil =>
    intro t h
    simp only [includesAux] at h
    have : p = [] := by
      cases p with
      | nil => rfl
      | cons a as => simp [List.isEmpty] at h
    subst this
    simpa using includesAux_nil_pat t
  | cons c rest ih =>
    intro t h
    simp only [includesAux, Bool.or_eq_true] at h
    rcases h with h | h
    · have : leadsWith p ((c :: rest) ++ t) = true := leadsWith_append p (c :: rest) t h
      simp only [List.cons_append] at this
      simp [includesAux, this]
    · simp [includesAux, ih t h]

theorem strIncludes_append_left (a b pat : String)
    (h : strIncludes a pat = true) : strIncludes (a ++ b) pat = true := by
  unfold strIncludes at h ⊢
  rw [String.data_append]
  exact includesAux_append_left _ _ _ h

theorem processedCount_all_fail (imgs : List String)
    (ext : String → Except JsError AnalysisResultRt)
    (h : ∀ img ∈ imgs, ∃ e, ext img = .error e) :
    processedCount (outcomesOf imgs ext) = 0 := by
  induction imgs with
  | nil => rfl
  | cons i rest ih =>
    obtain ⟨e, he⟩ := h i (List.mem_cons_self _ _)
    have hrest := ih (fun img hm => h img (List.mem_cons_of_mem _ hm))
    show processedCount (settleOne (ext i) :: outcomesOf rest ext) = 0
    rw [he]
    show processedCount (none :: outcomesOf rest ext) = 0
    unfold processedCount at hrest ⊢
    rw [List.countP_cons]
    simp [hrest]

theorem lastErrorOf_aux : ∀ (rs : List (Except JsError AnalysisResultRt))
    (acc : Option JsError) (e : JsError),
    rs.foldl (fun acc r => match r with
      | .error e2 => some e2
      | .ok _ => acc) acc = some e →
    Except.error e ∈ rs ∨ acc = some e := by
  intro rs
  induction rs with
  | nil => intro acc e h; right; exact h
  | cons r rest ih =>
    intro acc e h
    simp only [List.foldl_cons] at h
    cases r with
    | error e2 =>
      rcases ih _ _ h with hm | ha
      · exact Or.inl (List.mem_cons_of_mem _ hm)
      · have : e2 = e := by simpa using ha
        exact Or.inl (this ▸ List.mem_cons_self _ _)
    | ok v =>
      rcases ih _ _ h with hm | ha
      · exact Or.inl (List.mem_cons_of_mem _ hm)
      · exact Or.inr ha

theorem lastErrorOf_some (rs : List (Except JsError AnalysisResultRt))
    (e : JsError) (h : lastErrorOf rs = some e) : Except.error e ∈ rs := by
  rcases lastErrorOf_aux rs none e h with hm | ha
  · exact hm
  · simp at ha

theorem getAI_ok_hasKey (s : CredState) (c : String) (s2 : CredState)
    (hc : s.ai = none) (hAI : getAI s = .ok (c, s2)) :
    hasApiKey s = true ∧ s2 = { s with ai := some c } := by
  simp only [getAI, hc] at hAI
  by_cases hcond : ((match s.env with
      | some k => k
      | none => "") == "" || (match s.env with
      | some k => k
      | none => "") == "undefined") = true
  · simp only [if_pos hcond] at hAI
    by_cases hst : (s.stored.getD "" == "") = true
    · simp only [if_pos hst] at hAI
      simp at hAI
    · simp only [if_neg hst] at hAI
      simp only [Except.ok.injEq, Prod.mk.injEq] at hAI
      obtain ⟨h1, h2⟩ := hAI
      refine ⟨?_, by rw [← h2, ← h1]⟩
      cases hs : s.stored with
      | none => rw [hs] at hst; simp at hst
      | some sk =>
        rw [hs] at hst
        simp only [Option.getD_some] at hst
        simp only [hasApiKey, hs, Bool.or_eq_true]
        right
        simpa using hst
  · simp only [if_neg hcond] at hAI
    have hk1 : ((match s.env with
        | some k => k
        | none => "") == "") = true → False := by
      intro hx
      exact hcond (by simp [hx])
    by_cases hx : ((match s.env with
        | some k => k
        | none => "") == "") = true
    · exact absurd hx hk1
    · simp only [if_neg hx] at hAI
      simp only [Except.ok.injEq, Prod.mk.injEq] at hAI
      obtain ⟨h1, h2⟩ := hAI
      refine ⟨?_, by rw [← h2, ← h1]⟩
      cases he : s.env with
      | none => rw [he] at hx; simp at hx
      | some ek =>
        rw [he] at hcond
        simp only [Bool.or_eq_true, not_or] at hcond
        simp only [hasApiKey, he, envGood, Bool.or_eq_true,
          Bool.and_eq_true, Bool.not_eq_true']
        left
        exact ⟨by simpa using hcond.1, by simpa using hcond.2⟩

theorem applyOp_consistent (s : CredState) (op : CredOp)
    (h : ∀ k, s.ai = some k → hasApiKey s = true) :
    ∀ k, (applyOp s op).ai = some k → hasApiKey (applyOp s op) = true := by
  cases op with
  | setKey key =>
    intro k hk
    by_cases hcond : (key == "") = true
    · simp only [applyOp, setStoredApiKey, if_pos hcond] at hk ⊢
      exact h k hk
    · simp only [applyOp, setStoredApiKey, if_neg hcond] at hk ⊢
      simp at hk
  | clearKey =>
    intro k hk
    simp [applyOp, removeStoredApiKey] at hk
  | analyze =>
    intro k hk
    simp only [applyOp] at hk ⊢
    cases hAI : getAI s with
    | error e =>
      rw [hAI] at hk
      exact h k hk
    | ok p =>
      obtain ⟨c, s2⟩ := p
      rw [hAI] at hk
      have hk : s2.ai = some k := hk
      show hasApiKey s2 = true
      cases hc : s.ai with
      | some c0 =>
        have : getAI s = .ok (c0, s) := by simp [getAI, hc]
        rw [this] at hAI
        simp only [Except.ok.injEq, Prod.mk.injEq] at hAI
        rw [← hAI.2]
        exact h k (by rw [hAI.2]; exact hk)
      | none =>
        obtain ⟨hKey, hs2⟩ := getAI_ok_hasKey s c s2 hc hAI
        rw [hs2]
        exact hKey

theorem reach_consistent (env stored : Option String) (ops : List CredOp) :
    ∀ k, (reachCred env stored ops).ai = some k →
    hasApiKey (reachCred env stored ops) = true := by
  suffices h : ∀ (os : List CredOp) (s : CredState),
      (∀ k, s.ai = some k → hasApiKey s = true) →
      ∀ k, (os.foldl applyOp s).ai = some k →
      hasApiKey (os.foldl applyOp s) = true by
    exact h ops (initState env stored) (by intro k hk; simp [initState] at hk)
  intro os
  induction os with
  | nil => intro s hs; exact hs
  | cons op rest ih =>
    intro s hs
    exact ih (applyOp s op) (applyOp_consistent s op hs)

theorem getAI_of_no_key (s : CredState) (hai : s.ai = none)
    (h : hasApiKey s = false) : getAI s = .error missingKeyErr := by
  simp only [hasApiKey, Bool.or_eq_false_iff] at h
  have henv : envGood s.env = false := h.1
  have hk1 : ((match s.env with
      | some k => k
      | none => "") == "" || (match s.env with
      | some k => k
      | none => "") == "undefined") = true := by
    cases he : s.env with
    | none => simp
    | some ek =>
      rw [he] at henv
      simp only [envGood, Bool.and_eq_false_iff, Bool.not_eq_false] at henv
      simpa using henv
  have hst : s.stored.getD "" = "" := by
    cases hs : s.stored with
    | none => rfl
    | some sk =>
      rw [hs] at h
      have := h.2
      simp only [Bool.not_eq_false] at this
      simpa using this
  simp only [getAI, hai, hk1, hst, if_true]
  rfl

/-- C1: For every sequence of settled outcomes, the merged collection contains
no two items with equal normalized codes; every member has a non-empty
normalized code (an item whose normalized code is empty is never added); the
collection is a subsequence of the concatenated success items taken in image
processing order and then within-image order, each member being the first item
of that stream bearing its normalized code (first-seen wins, appended
unmodified); and every non-empty normalized code of the stream is represented
(later duplicates are discarded, not lost). -/
theorem C1_merge_dedup (outs : List (Option AnalysisResultRt)) :
    (mergedOf outs).Pairwise (fun a b => itemCode a ≠ itemCode b) ∧
    (∀ it ∈ mergedOf outs, (itemCode it).length > 0) ∧
    (mergedOf outs).Sublist (flatItems outs) ∧
    (∀ it ∈ mergedOf outs,
      (flatItems outs).find? (fun x => itemCode x == itemCode it) = some it) ∧
    (∀ it ∈ flatItems outs, (itemCode it).length > 0 →
      ∃ it3 ∈ mergedOf outs, itemCode it3 = itemCode it) := by
  rw [mergedOf_eq_dedup]
  refine ⟨dedupFirst_pairwise [] _, ?_, dedupFirst_sublist [] _, ?_, ?_⟩
  · intro it hm
    exact (dedupFirst_mem [] _ it hm).1
  · intro it hm
    exact dedupFirst_first_wins [] _ it hm
  · intro it hm hlen
    exact dedupFirst_covers _ [] it hm hlen (by simp)

/-- Witness for C1 on a concrete outcome sequence: the kept representative of
the duplicated code is the first-seen item, members carry non-empty codes, and
the duplicate code is represented in the merged output. -/
theorem C1_merge_dedup_w :
    (flatItems outsW).find? (fun x => itemCode x == itemCode itemAb) = some itemAb ∧
    (itemCode itemZz).length > 0 ∧
    (∃ it3 ∈ mergedOf outsW, itemCode it3 = itemCode itemDup) :=
  ⟨(C1_merge_dedup outsW).2.2.2.1 itemAb (by decide),
   (C1_merge_dedup outsW).2.1 itemZz (by decide),
   (C1_merge_dedup outsW).2.2.2.2 itemDup (by decide) (by decide)⟩

/-- C2: whenever at least one image contributed a processed result, the
pipeline sets the non-error result whose items are the merged collection and
whose summary is exactly the template string, with no hypothesis on the merged
collection (it holds even when that collection is empty). -/
theorem C2_success_summary (imgs : List String)
    (ext : String → Except JsError AnalysisResultRt)
    (hp : 0 < processedCount (outcomesOf imgs ext)) :
    processImages imgs ext =
      { result := some (mergedOf (outcomesOf imgs ext),
          summaryMsg (processedCount (outcomesOf imgs ext)) imgs.length
            (mergedOf (outcomesOf imgs ext)).length),
        error := none, errorDetails := none, apiKeyMissing := false,
        thrown := none } := by
  have hne : ¬(processedCount (outcomesOf imgs ext) = 0 ∧ 0 < imgs.length) := by
    rintro ⟨h1, _⟩
    rw [h1] at hp
    exact Nat.lt_irrefl 0 hp
  unfold processImages classifyAndFinish
  rw [if_neg hne]

/-- Witness for C2: the partial-success vector (two successes of three images,
three unique codes) and the all-success-zero-items vector both yield the
non-error result with the exact summary string. -/
theorem C2_success_summary_w :
    processImages imgsP extPartial =
      { result := some ([itemAb, itemZz, itemQ],
          "Processed 2 of 3 images. Found 3 unique codes."),
        error := none, errorDetails := none, apiKeyMissing := false,
        thrown := none } ∧
    processImages ["a"] extOkEmpty =
      { result := some ([], "Processed 1 of 1 images. Found 0 unique codes."),
        error := none, errorDetails := none, apiKeyMissing := false,
        thrown := none } :=
  ⟨(C2_success_summary imgsP extPartial (by decide)).trans (by decide),
   (C2_success_summary ["a"] extOkEmpty (by decide)).trans (by decide)⟩

/-- C3 counterexample: invoked with zero images, the pipeline does not surface
the no-recognizable-codes error; it returns the non-error result with the
zero-count summary (the error branch requires a positive image count). -/
theorem C3_cex :
    processImages [] extSock =
      { result := some ([], "Processed 0 of 0 images. Found 0 unique codes."),
        error := none, errorDetails := none, apiKeyMissing := false,
        thrown := none } ∧
    (processImages [] extSock).error ≠ some noCodesErrMsg := by
  decide

/-- C3 amended: with zero images the pipeline returns the non-error result
whose summary is the zero-count template; the no-recognizable-codes error with
the blur/small-code/legibility detail is surfaced exactly when the image count
is positive, no image contributed a processed result, and no failure was
captured. -/
theorem C3_zero_images (imgs : List String)
    (ext : String → Except JsError AnalysisResultRt) :
    (imgs = [] →
      processImages imgs ext =
        { result := some ([], summaryMsg 0 0 0), error := none,
          errorDetails := none, apiKeyMissing := false, thrown := none }) ∧
    (0 < imgs.length →
      processedCount (outcomesOf imgs ext) = 0 →
      lastErrorOf (imgs.map ext) = none →
      processImages imgs ext =
        { result := none, error := some noCodesErrMsg,
          errorDetails := some noCodesDetail, apiKeyMissing := false,
          thrown := some noCodesErrMsg }) := by
  constructor
  · intro h
    subst h
    rfl
  · intro hlen hp hle
    unfold processImages classifyAndFinish
    rw [if_pos ⟨hp, hlen⟩, hle]

/-- Witness for C3: the zero-image invocation returns the non-error zero
result, and a one-image invocation whose single call resolves without an
items field surfaces the no-recognizable-codes error with its detail. -/
theorem C3_zero_images_w :
    processImages [] extOkEmpty =
      { result := some ([], "Processed 0 of 0 images. Found 0 unique codes."),
        error := none, errorDetails := none, apiKeyMissing := false,
        thrown := none } ∧
    processImages ["a"] extNoItems =
      { result := none, error := some noCodesErrMsg,
        errorDetails := some noCodesDetail, apiKeyMissing := false,
        thrown := some noCodesErrMsg } :=
  ⟨((C3_zero_images [] extOkEmpty).1 rfl).trans (by decide),
   (C3_zero_images ["a"] extNoItems).2 (by decide) (by decide) (by decide)⟩

theorem getq_map {α β : Type} (f : α → β) :
    ∀ (l : List α) (i : Nat), (l.map f)[i]? = (l[i]?).map f := by
  intro l
  induction l with
  | nil => intro i; cases i <;> simp
  | cons a t ih =>
    intro i
    cases i with
    | zero => simp
    | succ n =>
      simp only [List.map_cons, List.getElem?_cons_succ]
      exact ih n

/-- C4: the fan-out orchestrator produces exactly one settled outcome per input
image, in input order (the outcome at index i is the locally-caught settlement
of image i's extraction, so a thrown failure becomes a Failure outcome and is
never propagated out of the batch — runBatch is total); and the outcome at an
index depends only on that image's own extraction, so one image's failure
cannot change another's outcome. -/
theorem C4_fanout (imgs : List String)
    (ext ext2 : String → Except JsError AnalysisResultRt) :
    (runBatch imgs ext).length = imgs.length ∧
    (∀ i : Nat, (runBatch imgs ext)[i]? = (imgs[i]?).map (fun im => settle (ext im))) ∧
    (∀ i : Nat, ∀ im, imgs[i]? = some im → ext im = ext2 im →
      (runBatch imgs ext)[i]? = (runBatch imgs ext2)[i]?) := by
  refine ⟨List.length_map _ _, ?_, ?_⟩
  · intro i
    exact getq_map _ imgs i
  · intro i im him hee
    rw [runBatch, runBatch, getq_map _ imgs i, getq_map _ imgs i, him]
    simp [hee]

/-- Witness for C4 on two images where the two extraction functions agree on
the first image and differ on the second: length, per-index settlement, and
locality of the first outcome. -/
theorem C4_fanout_w :
    (runBatch ["a", "b"] extMixA).length = 2 ∧
    (runBatch ["a", "b"] extMixA)[1]? = some (PipelineOutcome.failure errTransportSock) ∧
    (runBatch ["a", "b"] extMixA)[0]? = (runBatch ["a", "b"] extMixB)[0]? :=
  ⟨(C4_fanout ["a", "b"] extMixA extMixA).1,
   ((C4_fanout ["a", "b"] extMixA extMixA).2.1 1).trans (by decide),
   (C4_fanout ["a", "b"] extMixA extMixB).2.2 0 "a" (by decide) rfl⟩

/-- C5: when no image contributed a processed result and the last observed
failure is a MissingCredential failure (code MISSING_API_KEY) or any failure
whose message mentions the credential marker, the pipeline throws the
credential-setup-required error and flips the application into its
credential-entry mode (apiKeyMissing), returning no result; the hypothesis
places no restriction on the rest of the message, so this branch takes
priority even when the message also matches the network or generic
classifications. The surrounding catch then suppresses the redundant error
banner precisely because the credential-entry screen is shown. -/
theorem C5_credential_priority (imgs : List String)
    (ext : String → Except JsError AnalysisResultRt) (e : JsError)
    (hlen : 0 < imgs.length)
    (hp : processedCount (outcomesOf imgs ext) = 0)
    (hle : lastErrorOf (imgs.map ext) = some e)
    (hcred : e.code = some "MISSING_API_KEY" ∨ strIncludes e.message "API Key" = true) :
    (processImages imgs ext).apiKeyMissing = true ∧
    (processImages imgs ext).thrown = some apiKeyErrMsg ∧
    (processImages imgs ext).result = none ∧
    (processImages imgs ext).error = none := by
  unfold processImages classifyAndFinish
  rw [if_pos ⟨hp, hlen⟩, hle]
  dsimp only
  rw [if_pos hcred]
  exact ⟨rfl, rfl, rfl, rfl⟩

/-- Witness for C5: a single failing image whose error both carries the
MISSING_API_KEY code and mentions fetch/network in its message still takes the
credential branch. -/
theorem C5_credential_priority_w :
    (processImages ["a"] extCredNet).apiKeyMissing = true ∧
    (processImages ["a"] extCredNet).thrown = some apiKeyErrMsg ∧
    (processImages ["a"] extCredNet).result = none ∧
    (processImages ["a"] extCredNet).error = none :=
  C5_credential_priority ["a"] extCredNet errCredNet (by decide) (by decide)
    (by decide) (Or.inl (by decide))

/-- C6 counterexample: every image fails with a TransportFailure (the wrapped
message "Analysis failed: socket hang up"), yet the pipeline's error is the
generic analysis-failed message, which indicates no network or connectivity
problem (it contains none of the markers). -/
theorem C6_cex :
    extSock "a" = Except.error { message := transportWrap "socket hang up", code := none } ∧
    (processImages ["a"] extSock).error = some genericErrMsg ∧
    (processImages ["a"] extSock).result = none ∧
    strIncludes genericErrMsg "network" = false ∧
    strIncludes genericErrMsg "fetch" = false ∧
    strIncludes genericErrMsg "connect" = false ∧
    strIncludes genericErrMsg "internet" = false :=
  ⟨rfl, by decide, by decide, by decide, by decide, by decide, by decide⟩

/-- C6 amended: when every image fails with a TransportFailure and the last
observed failure's wrapped message contains "fetch" or "network" (and does not
contain the credential marker "API Key"), the pipeline reports the network
error message and successCount is zero; a TransportFailure matching neither
marker falls to the generic classification instead (see the counterexample). -/
theorem C6_transport_network (imgs : List String)
    (ext : String → Except JsError AnalysisResultRt) (e : JsError)
    (hlen : 0 < imgs.length)
    (hfail : ∀ img ∈ imgs, ∃ m, ext img = .error { message := transportWrap m, code := none })
    (hle : lastErrorOf (imgs.map ext) = some e)
    (hnak : strIncludes e.message "API Key" = false)
    (hnet : strIncludes e.message "fetch" = true ∨ strIncludes e.message "network" = true) :
    (processImages imgs ext).error = some networkErrMsg ∧
    (processImages imgs ext).result = none ∧
    (processImages imgs ext).thrown = some networkErrMsg ∧
    processedCount (outcomesOf imgs ext) = 0 := by
  have hp : processedCount (outcomesOf imgs ext) = 0 :=
    processedCount_all_fail imgs ext
      (fun img hm => (hfail img hm).elim (fun m hm2 => ⟨_, hm2⟩))
  have hcode : e.code = none := by
    have hmem := lastErrorOf_some _ _ hle
    obtain ⟨img, hmi, hext⟩ := List.mem_map.mp hmem
    obtain ⟨m, hm2⟩ := hfail img hmi
    rw [hext] at hm2
    have he : e = { message := transportWrap m, code := none } := by
      simp only [Except.error.injEq] at hm2
      exact hm2
    rw [he]
  have hnc : ¬(e.code = some "MISSING_API_KEY" ∨ strIncludes e.message "API Key" = true) := by
    rintro (hc | hs)
    · rw [hcode] at hc
      cases hc
    · rw [hnak] at hs
      cases hs
  unfold processImages classifyAndFinish
  rw [if_pos ⟨hp, hlen⟩, hle]
  dsimp only
  rw [if_neg hnc, if_pos hnet]
  exact ⟨rfl, rfl, rfl, hp⟩

/-- Witness for C6: two images both failing with the wrapped fetch failure
yield the network error and a zero success count. -/
theorem C6_transport_network_w :
    (processImages ["a", "b"] extFetch).error = some networkErrMsg ∧
    (processImages ["a", "b"] extFetch).result = none ∧
    (processImages ["a", "b"] extFetch).thrown = some networkErrMsg ∧
    processedCount (outcomesOf ["a", "b"] extFetch) = 0 :=
  C6_transport_network ["a", "b"] extFetch errTransportFetch (by decide)
    (fun img _ => ⟨"Failed to fetch", rfl⟩) (by decide) (by decide)
    (Or.inl (by decide))

/-- C7: for every non-empty response text, the extraction client locates the
first opening-brace and the last closing-brace: when either is absent the call
fails with the delimiters-absent message, and when both are present the call
either returns the parse of exactly the enclosed substring or fails with the
parse-failure message — never partial data; both failure messages carry the
"JSON" marker through which the surrounding catch rethrows them unchanged as
the MalformedResponse classification. -/
theorem C7_delimiters (parse : String → Option Json) (text : String)
    (hne : ¬(text == "") = true) :
    ((idxOfAux '\x7b' text.data = none ∨ lastIdxOf '\x7d' text.data = none) →
      analyzeResponsePhase parse text = .error { message := noJsonMsg text, code := none }) ∧
    (∀ i j, idxOfAux '\x7b' text.data = some i → lastIdxOf '\x7d' text.data = some j →
      analyzeResponsePhase parse text =
        (match parse (jsSubstring text i (j + 1)) with
          | some v => Except.ok v
          | none => Except.error { message := parseFailMsg, code := none })) ∧
    strIncludes (noJsonMsg text) "JSON" = true ∧
    strIncludes parseFailMsg "JSON" = true := by
  refine ⟨?_, ?_, ?_, by decide⟩
  · intro h
    unfold analyzeResponsePhase
    rw [if_neg hne]
    cases h1 : idxOfAux '\x7b' text.data with
    | none =>
      cases h2 : lastIdxOf '\x7d' text.data with
      | none => rfl
      | some j => rfl
    | some i =>
      cases h2 : lastIdxOf '\x7d' text.data with
      | none => rfl
      | some j =>
        rcases h with h | h
        · rw [h1] at h
          cases h
        · rw [h2] at h
          cases h
  · intro i j hi hj
    unfold analyzeResponsePhase
    rw [if_neg hne, hi, hj]
  · have h0 : strIncludes "AI did not return a valid JSON object. Response: " "JSON" = true := by
      decide
    exact strIncludes_append_left _ _ _ (strIncludes_append_left _ _ _ h0)

/-- Witness for C7: a delimiter-free text fails with the delimiters-absent
message, and a text whose braces enclose the empty-object payload returns the
parsed value. -/
theorem C7_delimiters_w :
    analyzeResponsePhase jsonParseStub "no delimiters here" =
      Except.error { message := noJsonMsg "no delimiters here", code := none } ∧
    analyzeResponsePhase jsonParseStub "x\x7b\x7dy" = Except.ok (Json.obj []) :=
  ⟨(C7_delimiters jsonParseStub "no delimiters here" (by decide)).1 (Or.inl rfl),
   ((C7_delimiters jsonParseStub "x\x7b\x7dy" (by decide)).2.1 1 2 rfl rfl).trans rfl⟩

/-- C8 counterexample: the client accepts the empty-object response and returns
the parsed empty object as a success, although that value does not conform to
the AnalysisResult shape (no items, no summary) — so no shape re-validation
happens on the success path. -/
theorem C8_cex :
    analyzeResponsePhase jsonParseStub "\x7b\x7d" = Except.ok (Json.obj []) ∧
    conformsAnalysisResult (Json.obj []) = false :=
  ⟨rfl, rfl⟩

/-- C8 amended: whenever the extraction client returns successfully, the
returned object is exactly the value produced by parsing the delimited
substring, passed through without any runtime shape validation (the source's
cast is compile-time only); conformance to the AnalysisResult shape is only
biased by the request schema, and the counterexample shows a non-conforming
value returned as success. -/
theorem C8_no_validation (parse : String → Option Json) (text : String)
    (v : Json) (h : analyzeResponsePhase parse text = .ok v) :
    ∃ i j, idxOfAux '\x7b' text.data = some i ∧ lastIdxOf '\x7d' text.data = some j ∧
      parse (jsSubstring text i (j + 1)) = some v := by
  unfold analyzeResponsePhase at h
  by_cases ht : (text == "") = true
  · rw [if_pos ht] at h
    cases h
  · rw [if_neg ht] at h
    cases h1 : idxOfAux '\x7b' text.data with
    | none =>
      cases h2 : lastIdxOf '\x7d' text.data with
      | none => rw [h1, h2] at h; cases h
      | some j => rw [h1, h2] at h; cases h
    | some i =>
      cases h2 : lastIdxOf '\x7d' text.data with
      | none => rw [h1, h2] at h; cases h
      | some j =>
        rw [h1, h2] at h
        dsimp only at h
        cases hp : parse (jsSubstring text i (j + 1)) with
        | none =>
          rw [hp] at h
          cases h
        | some v2 =>
          rw [hp] at h
          cases h
          exact ⟨i, j, rfl, rfl, hp⟩

/-- Witness for C8: the success on the braced payload comes verbatim from the
parser. -/
theorem C8_no_validation_w :
    ∃ i j, idxOfAux '\x7b' ("x\x7b\x7dy").data = some i ∧
      lastIdxOf '\x7d' ("x\x7b\x7dy").data = some j ∧
      jsonParseStub (jsSubstring "x\x7b\x7dy" i (j + 1)) = some (Json.obj []) :=
  C8_no_validation jsonParseStub "x\x7b\x7dy" (Json.obj []) rfl

/-- C9 counterexample: both credentials are "absent or empty/placeholder" in
the claim's sense — the env credential is absent and the stored credential is
the placeholder string — yet hasApiKey returns true, because the code applies
the placeholder check only to the env credential. -/
theorem C9_cex :
    credAbsentEmptyOrPlaceholder none = true ∧
    credAbsentEmptyOrPlaceholder (some "undefined") = true ∧
    hasApiKey { env := none, stored := some "undefined", ai := none } = true := by
  decide

/-- C9 amended: hasApiKey returns false exactly when the env credential is
absent, empty, or the placeholder string AND the stored credential is absent
or empty — the placeholder check applies only to the env credential; and in
every reachable client state in which hasApiKey is false, invoking an
extraction fails immediately with the MISSING_API_KEY error, without issuing
any collaborator request and without touching the state. -/
theorem C9_credential_gating :
    (∀ (env stored ai : Option String),
      hasApiKey { env := env, stored := stored, ai := ai } = false ↔
        ((env = none ∨ env = some "" ∨ env = some "undefined") ∧
          (stored = none ∨ stored = some ""))) ∧
    (∀ (env stored : Option String) (ops : List CredOp)
      (collab : String → Except JsError AnalysisResultRt) (img : String),
      hasApiKey (reachCred env stored ops) = false →
      analyzeAttempt (reachCred env stored ops) collab img =
        (.error missingKeyErr, false, reachCred env stored ops)) := by
  constructor
  · intro env stored ai
    cases env <;> cases stored <;> simp [hasApiKey, envGood] <;> tauto
  · intro env stored ops collab img h
    have hai : (reachCred env stored ops).ai = none := by
      cases hA : (reachCred env stored ops).ai with
      | none => rfl
      | some k =>
        have := reach_consistent env stored ops k hA
        rw [h] at this
        cases this
    unfold analyzeAttempt
    rw [getAI_of_no_key _ hai h]

/-- Witness for C9: with neither credential configured, hasApiKey is false
from the characterization, and an extraction attempt from the page-load state
yields the MISSING_API_KEY error without issuing a request. -/
theorem C9_credential_gating_w :
    hasApiKey { env := none, stored := none, ai := none } = false ∧
    analyzeAttempt (reachCred none none []) collabStub "img" =
      (.error missingKeyErr, false, reachCred none none []) :=
  ⟨(C9_credential_gating.1 none none none).mpr ⟨Or.inl rfl, Or.inl rfl⟩,
   C9_credential_gating.2 none none [] collabStub "img" (by decide)⟩

/-- C10: an item whose dotCode field is absent is handled without failure: its
normalized code is the empty string, processing it leaves the merge
accumulators (and hence the unique-code total) unchanged, and it never appears
in the merged output of any outcome sequence. -/
theorem C10_missing_dotcode (it : ScannedItem) (h : it.dotCode = none) :
    itemCode it = "" ∧
    (∀ st, addItem st it = st) ∧
    (∀ outs, it ∉ mergedOf outs) := by
  have hcode : itemCode it = "" := by
    rw [itemCode, h]
    rfl
  refine ⟨hcode, ?_, ?_⟩
  · intro st
    have hlen : ¬((itemCode it).length > 0 ∧ itemCode it ∉ st.seen) := by
      rintro ⟨h1, _⟩
      rw [hcode] at h1
      exact Nat.lt_irrefl 0 h1
    simp only [addItem, if_neg hlen]
  · intro outs hm
    rw [mergedOf_eq_dedup] at hm
    have hp := (dedupFirst_mem [] _ it hm).1
    rw [hcode] at hp
    exact Nat.lt_irrefl 0 hp

/-- Witness for C10 on the concrete field-free item: empty code, no-op merge
step, and exclusion from a merged output whose stream contains it. -/
theorem C10_missing_dotcode_w :
    itemCode itemNoCode = "" ∧
    addItem { seen := [], acc := [] } itemNoCode = { seen := [], acc := [] } ∧
    itemNoCode ∉ mergedOf outsW :=
  ⟨(C10_missing_dotcode itemNoCode rfl).1,
   (C10_missing_dotcode itemNoCode rfl).2.1 { seen := [], acc := [] },
   (C10_missing_dotcode itemNoCode rfl).2.2 outsW⟩
